import Mathlib

/-!
Verification of the StockAgent market-data engine (`tools/stock_data.py`)
against its natural-language specification.

Modelling conventions (shallow embedding):
* Python strings are `List Char` (`PyStr`); `str.lower()` is modelled on the
  ASCII letters, `str.strip()` on the ASCII whitespace characters.
* Python floats are exact rationals `ℚ`; where the code can produce the IEEE
  special values (the pandas RSI division), an extended type `ERat` with
  `inf`/`negInf`/`nan` constructors is used.
* Python ints are `ℤ`; `//` is `Int.fdiv` (floor division).
* pandas frames are lists of `Candle` records; `series.rolling(k).mean().iloc[-1]`
  is the arithmetic mean of the last `k` entries.
-/

/-- Python strings are modelled as lists of characters. -/
abbrev PyStr := List Char

/-- Embed a Lean string literal into the model. -/
def lit (s : String) : PyStr := s.toList

/-- The whitespace characters recognised by Python `str.strip()` (ASCII part). -/
def isPySpace (c : Char) : Bool :=
  c = ' ' || c = '\t' || c = '\n' || c = '\r' || c = '\x0b' || c = '\x0c'

/-- Upper/lower case pairs used to model Python `str.lower()` (ASCII part). -/
def lowerPairs : List (Char × Char) :=
  [('A', 'a'), ('B', 'b'), ('C', 'c'), ('D', 'd'), ('E', 'e'), ('F', 'f'),
   ('G', 'g'), ('H', 'h'), ('I', 'i'), ('J', 'j'), ('K', 'k'), ('L', 'l'),
   ('M', 'm'), ('N', 'n'), ('O', 'o'), ('P', 'p'), ('Q', 'q'), ('R', 'r'),
   ('S', 's'), ('T', 't'), ('U', 'u'), ('V', 'v'), ('W', 'w'), ('X', 'x'),
   ('Y', 'y'), ('Z', 'z')]

/-- Look a character up in a case table, defaulting to the character itself. -/
def lookupLower : List (Char × Char) → Char → Char
  | [], c => c
  | p :: rest, c => if c = p.1 then p.2 else lookupLower rest c

/-- Python `str.lower()` on one character (ASCII model). -/
def pyToLower (c : Char) : Char := lookupLower lowerPairs c

/-- Python `str.lower()`. -/
def pyLower (s : PyStr) : PyStr := s.map pyToLower

/-- Python `str.strip()` (no argument: strips whitespace at both ends). -/
def pyStrip (s : PyStr) : PyStr :=
  (((s.dropWhile isPySpace).reverse).dropWhile isPySpace).reverse

/-- Python `str.startswith` for one candidate; tuples become disjunctions. -/
def beginsWith : PyStr → PyStr → Bool
  | [], _ => true
  | _ :: _, [] => false
  | p :: ps, c :: cs => p == c && beginsWith ps cs

/-- The rule table of `_normalize_cn_symbol` (stock_data.py lines 23-31),
applied to the already stripped and lower-cased code. -/
def cnRules (code : PyStr) : PyStr :=
  if beginsWith ['s', 'h'] code || beginsWith ['s', 'z'] code
      || beginsWith ['b', 'j'] code then code
  else if beginsWith ['6'] code || beginsWith ['9'] code then 's' :: 'h' :: code
  else if beginsWith ['0'] code || beginsWith ['3'] code then 's' :: 'z' :: code
  else if beginsWith ['8'] code || beginsWith ['4'] code then 'b' :: 'j' :: code
  else code

/-- `_normalize_cn_symbol` (stock_data.py lines 21-31):
`code = stock_code.strip().lower()`, then the prefix rule table. -/
def normalizeCnSymbol (stockCode : PyStr) : PyStr :=
  cnRules (pyLower (pyStrip stockCode))

/-! ### Generic facts about the string model -/

theorem lookupLower_cases (ps : List (Char × Char)) (c : Char) :
    lookupLower ps c = c ∨ ∃ p ∈ ps, c = p.1 ∧ lookupLower ps c = p.2 := by
  induction ps with
  | nil => exact Or.inl rfl
  | cons p rest ih =>
    by_cases h : c = p.1
    · exact Or.inr ⟨p, List.mem_cons_self .., h, by simp [lookupLower, h]⟩
    · rcases ih with h1 | ⟨q, hq, hc, hl⟩
      · exact Or.inl (by simp [lookupLower, h, h1])
      · exact Or.inr ⟨q, List.mem_cons_of_mem _ hq, hc, by simp [lookupLower, h, hl]⟩

theorem lowerPairs_snd_fixed :
    ∀ p ∈ lowerPairs, lookupLower lowerPairs p.2 = p.2 := by decide

theorem lowerPairs_not_space :
    ∀ p ∈ lowerPairs, isPySpace p.1 = false ∧ isPySpace p.2 = false := by decide

theorem pyToLower_idem (c : Char) : pyToLower (pyToLower c) = pyToLower c := by
  rcases lookupLower_cases lowerPairs c with h | ⟨p, hp, _, h⟩
  · rw [pyToLower, pyToLower, h, h]
  · rw [pyToLower, pyToLower, h]
    exact lowerPairs_snd_fixed p hp

theorem isPySpace_pyToLower {c : Char} (h : isPySpace c = false) :
    isPySpace (pyToLower c) = false := by
  rcases lookupLower_cases lowerPairs c with h1 | ⟨p, hp, _, h1⟩
  · rw [pyToLower, h1]; exact h
  · rw [pyToLower, h1]; exact (lowerPairs_not_space p hp).2

/-- A string whose first and last characters are not whitespace. -/
def NoEdgeSpace (s : PyStr) : Prop :=
  (∀ c, s.head? = some c → isPySpace c = false) ∧
  (∀ c, s.getLast? = some c → isPySpace c = false)

theorem dropWhile_head_not {s : PyStr} {c : Char}
    (h : (s.dropWhile isPySpace).head? = some c) : isPySpace c = false := by
  have := List.head?_dropWhile_not isPySpace s
  rw [h] at this
  exact this

theorem dropWhile_eq_self_of_head {s : PyStr}
    (h : ∀ c, s.head? = some c → isPySpace c = false) :
    s.dropWhile isPySpace = s := by
  cases s with
  | nil => rfl
  | cons a t => exact List.dropWhile_cons_of_neg (by simp [h a rfl])

theorem getLast?_of_suffix {s t : List Char} (h : s <:+ t) (hs : s ≠ []) :
    s.getLast? = t.getLast? := by
  rcases h with ⟨u, rfl⟩
  rw [List.getLast?_append]
  cases hl : s.getLast? with
  | none => exact absurd (List.getLast?_eq_none_iff.mp hl) hs
  | some c => rfl

theorem noEdgeSpace_pyStrip (s : PyStr) : NoEdgeSpace (pyStrip s) := by
  constructor
  · intro c hc
    -- the head of the strip is the last of the reversed inner dropWhile,
    -- which is a suffix of the reversed first dropWhile
    rw [pyStrip, List.head?_reverse] at hc
    have hsuf : ((s.dropWhile isPySpace).reverse).dropWhile isPySpace <:+
        (s.dropWhile isPySpace).reverse := List.dropWhile_suffix _
    have hne : ((s.dropWhile isPySpace).reverse).dropWhile isPySpace ≠ [] := by
      intro h0
      rw [h0] at hc
      simp at hc
    rw [getLast?_of_suffix hsuf hne, List.getLast?_reverse] at hc
    exact dropWhile_head_not hc
  · intro c hc
    rw [pyStrip, List.getLast?_reverse] at hc
    exact dropWhile_head_not hc

theorem pyStrip_eq_self {s : PyStr} (h : NoEdgeSpace s) : pyStrip s = s := by
  rw [pyStrip]
  rw [dropWhile_eq_self_of_head h.1]
  rw [dropWhile_eq_self_of_head (by
    intro c hc
    rw [List.head?_reverse] at hc
    exact h.2 c hc)]
  exact List.reverse_reverse s

/-- A string all of whose characters are fixed by `pyToLower`. -/
def LowerFixed (s : PyStr) : Prop := ∀ c ∈ s, pyToLower c = c

theorem lowerFixed_pyLower (s : PyStr) : LowerFixed (pyLower s) := by
  intro c hc
  rcases List.mem_map.mp hc with ⟨a, _, rfl⟩
  exact pyToLower_idem a

theorem pyLower_eq_self {s : PyStr} (h : LowerFixed s) : pyLower s = s := by
  rw [pyLower]
  exact List.map_congr_left h ▸ List.map_id s

theorem noEdgeSpace_pyLower {s : PyStr} (h : NoEdgeSpace s) :
    NoEdgeSpace (pyLower s) := by
  constructor
  · intro c hc
    rw [pyLower, List.head?_map] at hc
    cases hh : s.head? with
    | none => rw [hh] at hc; simp at hc
    | some a =>
      rw [hh] at hc
      simp at hc
      subst hc
      exact isPySpace_pyToLower (h.1 a hh)
  · intro c hc
    rw [pyLower, List.getLast?_map] at hc
    cases hh : s.getLast? with
    | none => rw [hh] at hc; simp at hc
    | some a =>
      rw [hh] at hc
      simp at hc
      subst hc
      exact isPySpace_pyToLower (h.2 a hh)

theorem cnRules_shape (code : PyStr) :
    cnRules code = code ∨ cnRules code = 's' :: 'h' :: code ∨
    cnRules code = 's' :: 'z' :: code ∨ cnRules code = 'b' :: 'j' :: code := by
  rw [cnRules]
  split
  · exact Or.inl rfl
  · split
    · exact Or.inr (Or.inl rfl)
    · split
      · exact Or.inr (Or.inr (Or.inl rfl))
      · split
        · exact Or.inr (Or.inr (Or.inr rfl))
        · exact Or.inl rfl

theorem cnRules_fixed_of_head2 {a b : Char} (t : PyStr)
    (h : (a = 's' ∧ b = 'h') ∨ (a = 's' ∧ b = 'z') ∨ (a = 'b' ∧ b = 'j')) :
    cnRules (a :: b :: t) = a :: b :: t := by
  rcases h with ⟨rfl, rfl⟩ | ⟨rfl, rfl⟩ | ⟨rfl, rfl⟩ <;>
    · rw [cnRules, if_pos (by simp [beginsWith])]

theorem cnRules_idem (code : PyStr) : cnRules (cnRules code) = cnRules code := by
  rcases cnRules_shape code with h | h | h | h
  · rw [h]
    exact h
  · rw [h]
    exact cnRules_fixed_of_head2 code (Or.inl ⟨rfl, rfl⟩)
  · rw [h]
    exact cnRules_fixed_of_head2 code (Or.inr (Or.inl ⟨rfl, rfl⟩))
  · rw [h]
    exact cnRules_fixed_of_head2 code (Or.inr (Or.inr ⟨rfl, rfl⟩))

theorem noEdgeSpace_cnRules {code : PyStr} (h : NoEdgeSpace code) :
    NoEdgeSpace (cnRules code) := by
  have hcons : ∀ a b : Char, isPySpace a = false → isPySpace b = false →
      NoEdgeSpace (a :: b :: code) := by
    intro a b ha hb
    constructor
    · intro c hc
      simp only [List.head?_cons] at hc
      cases hc
      exact ha
    · intro c hc
      rw [List.getLast?_cons_cons] at hc
      cases code with
      | nil =>
        rw [List.getLast?_singleton, Option.some.injEq] at hc
        rw [← hc]
        exact hb
      | cons x xs =>
        rw [List.getLast?_cons_cons] at hc
        exact h.2 c hc
  rcases cnRules_shape code with h1 | h1 | h1 | h1 <;> rw [h1]
  · exact h
  · exact hcons 's' 'h' rfl rfl
  · exact hcons 's' 'z' rfl rfl
  · exact hcons 'b' 'j' rfl rfl

theorem lowerFixed_cnRules {code : PyStr} (h : LowerFixed code) :
    LowerFixed (cnRules code) := by
  rcases cnRules_shape code with h1 | h1 | h1 | h1 <;> rw [h1]
  · exact h
  all_goals
    intro c hc
    rcases hc with _ | ⟨_, hc⟩
    · rfl
    · rcases hc with _ | ⟨_, hc⟩
      · rfl
      · exact h c hc

/-! ### C4 and C5: symbol normalization -/

/-- C4 counterexample: the claim says unmatched input is returned unchanged,
but `_normalize_cn_symbol` lower-cases (and strips) every input, so the
unmatched input "ABC" comes back as "abc". -/
theorem normalize_cn_symbol_not_unchanged :
    normalizeCnSymbol (lit "ABC") ≠ lit "ABC" ∧
    normalizeCnSymbol (lit "ABC") = lit "abc" := by
  constructor
  · decide
  · decide

theorem head?_eq_cons {c : PyStr} {d : Char} (hd : c.head? = some d) :
    ∃ t, c = d :: t := by
  cases c with
  | nil => simp at hd
  | cons a t =>
    simp only [List.head?_cons, Option.some.injEq] at hd
    exact ⟨t, by rw [hd]⟩

theorem cnRules_table (c : PyStr) :
    ((beginsWith ['s', 'h'] c || beginsWith ['s', 'z'] c
        || beginsWith ['b', 'j'] c) = true → cnRules c = c)
    ∧ (∀ d, c.head? = some d → (d = '6' ∨ d = '9') → cnRules c = 's' :: 'h' :: c)
    ∧ (∀ d, c.head? = some d → (d = '0' ∨ d = '3') → cnRules c = 's' :: 'z' :: c)
    ∧ (∀ d, c.head? = some d → (d = '8' ∨ d = '4') → cnRules c = 'b' :: 'j' :: c)
    ∧ (((beginsWith ['s', 'h'] c || beginsWith ['s', 'z'] c
        || beginsWith ['b', 'j'] c) = false) →
      (∀ d, c.head? = some d → d ∉ (['6', '9', '0', '3', '8', '4'] : List Char)) →
      cnRules c = c) := by
  refine ⟨?_, ?_, ?_, ?_, ?_⟩
  · intro h
    rw [cnRules, if_pos h]
  · rintro d hd (rfl | rfl) <;>
    · obtain ⟨t, rfl⟩ := head?_eq_cons hd
      rw [cnRules, if_neg (by simp [beginsWith]), if_pos (by simp [beginsWith])]
  · rintro d hd (rfl | rfl) <;>
    · obtain ⟨t, rfl⟩ := head?_eq_cons hd
      rw [cnRules, if_neg (by simp [beginsWith]), if_neg (by simp [beginsWith]),
        if_pos (by simp [beginsWith])]
  · rintro d hd (rfl | rfl) <;>
    · obtain ⟨t, rfl⟩ := head?_eq_cons hd
      rw [cnRules, if_neg (by simp [beginsWith]), if_neg (by simp [beginsWith]),
        if_neg (by simp [beginsWith]), if_pos (by simp [beginsWith])]
  · intro h hds
    cases c with
    | nil => rfl
    | cons a t =>
      have ha := hds a rfl
      simp only [List.mem_cons, List.not_mem_nil, or_false] at ha
      push_neg at ha
      obtain ⟨ha6, ha9, ha0, ha3, ha8, ha4⟩ := ha
      rw [cnRules, if_neg (by simp [h]),
        if_neg (by simp [beginsWith, Ne.symm ha6, Ne.symm ha9]),
        if_neg (by simp [beginsWith, Ne.symm ha0, Ne.symm ha3]),
        if_neg (by simp [beginsWith, Ne.symm ha8, Ne.symm ha4])]

/-- C4 (amended): after first stripping surrounding whitespace and
lower-casing, the rule table applies: a recognized two-letter sh/sz/bj head
is returned as-is, leading 6/9 gets "sh" prepended, 0/3 gets "sz", 8/4 gets
"bj", and anything else is returned as the stripped lower-cased code (not as
the original input).  The function is total: it never fails. -/
theorem normalize_cn_symbol_rule_table (s : PyStr) :
    ((beginsWith ['s', 'h'] (pyLower (pyStrip s))
        || beginsWith ['s', 'z'] (pyLower (pyStrip s))
        || beginsWith ['b', 'j'] (pyLower (pyStrip s))) = true →
      normalizeCnSymbol s = pyLower (pyStrip s))
    ∧ (∀ d, (pyLower (pyStrip s)).head? = some d → (d = '6' ∨ d = '9') →
      normalizeCnSymbol s = 's' :: 'h' :: pyLower (pyStrip s))
    ∧ (∀ d, (pyLower (pyStrip s)).head? = some d → (d = '0' ∨ d = '3') →
      normalizeCnSymbol s = 's' :: 'z' :: pyLower (pyStrip s))
    ∧ (∀ d, (pyLower (pyStrip s)).head? = some d → (d = '8' ∨ d = '4') →
      normalizeCnSymbol s = 'b' :: 'j' :: pyLower (pyStrip s))
    ∧ (((beginsWith ['s', 'h'] (pyLower (pyStrip s))
        || beginsWith ['s', 'z'] (pyLower (pyStrip s))
        || beginsWith ['b', 'j'] (pyLower (pyStrip s))) = false) →
      (∀ d, (pyLower (pyStrip s)).head? = some d →
        d ∉ (['6', '9', '0', '3', '8', '4'] : List Char)) →
      normalizeCnSymbol s = pyLower (pyStrip s)) :=
  cnRules_table (pyLower (pyStrip s))

/-- C4 witness: " 600519 " is stripped, lower-cased and gets the "sh"
exchange head. -/
theorem normalize_cn_symbol_rule_table_witness :
    normalizeCnSymbol (lit " 600519 ") = lit "sh600519" := by
  have h := (normalize_cn_symbol_rule_table (lit " 600519 ")).2.1 '6'
    (by decide) (Or.inl rfl)
  rw [h]
  decide

/-- C5: `_normalize_cn_symbol` is idempotent: normalizing an
already-normalized ticker changes nothing. -/
theorem normalize_cn_symbol_idem (s : PyStr) :
    normalizeCnSymbol (normalizeCnSymbol s) = normalizeCnSymbol s := by
  have hNS : NoEdgeSpace (normalizeCnSymbol s) :=
    noEdgeSpace_cnRules (noEdgeSpace_pyLower (noEdgeSpace_pyStrip s))
  have hLF : LowerFixed (normalizeCnSymbol s) :=
    lowerFixed_cnRules (lowerFixed_pyLower (pyStrip s))
  calc normalizeCnSymbol (normalizeCnSymbol s)
      = cnRules (pyLower (pyStrip (normalizeCnSymbol s))) := rfl
    _ = cnRules (pyLower (normalizeCnSymbol s)) := by rw [pyStrip_eq_self hNS]
    _ = cnRules (normalizeCnSymbol s) := by rw [pyLower_eq_self hLF]
    _ = normalizeCnSymbol s := cnRules_idem _

/-! ### Numeric model

Python floats are exact rationals.  The arithmetic instances on `ℚ` are
`@[irreducible]`, so the embedding uses kernel-reducible wrappers built on
`Rat.divInt`; the bridge lemmas `qadd_eq` … identify them with the standard
operations for algebraic reasoning. -/

/-- Reducible rational addition (same value as `+`). -/
def qadd (a b : ℚ) : ℚ := Rat.divInt (a.num * b.den + b.num * a.den) (a.den * b.den)

/-- Reducible rational subtraction (same value as `-`). -/
def qsub (a b : ℚ) : ℚ := qadd a (-b)

/-- Reducible rational multiplication (same value as `*`). -/
def qmul (a b : ℚ) : ℚ := Rat.divInt (a.num * b.num) (a.den * b.den)

/-- Reducible rational division (same value as `/`, with `qdiv a 0 = 0`). -/
def qdiv (a b : ℚ) : ℚ := Rat.divInt (a.num * b.den) (a.den * b.num)

/-- Reducible list sum (same value as `List.sum`). -/
def qsum : List ℚ → ℚ
  | [] => 0
  | x :: xs => qadd x (qsum xs)

theorem qadd_eq (a b : ℚ) : qadd a b = a + b := by
  rw [qadd, Rat.divInt_eq_div]
  have ha : ((a.den : ℚ)) ≠ 0 := by
    exact_mod_cast Nat.pos_iff_ne_zero.mp a.den_pos
  have hb : ((b.den : ℚ)) ≠ 0 := by
    exact_mod_cast Nat.pos_iff_ne_zero.mp b.den_pos
  conv_rhs => rw [← Rat.num_div_den a, ← Rat.num_div_den b]
  push_cast
  field_simp

theorem qsub_eq (a b : ℚ) : qsub a b = a - b := by
  rw [qsub, qadd_eq]
  ring

theorem qmul_eq (a b : ℚ) : qmul a b = a * b := by
  rw [qmul, Rat.divInt_eq_div]
  have ha : ((a.den : ℚ)) ≠ 0 := by
    exact_mod_cast Nat.pos_iff_ne_zero.mp a.den_pos
  have hb : ((b.den : ℚ)) ≠ 0 := by
    exact_mod_cast Nat.pos_iff_ne_zero.mp b.den_pos
  conv_rhs => rw [← Rat.num_div_den a, ← Rat.num_div_den b]
  push_cast
  field_simp

theorem qdiv_eq (a b : ℚ) : qdiv a b = a / b := by
  rcases eq_or_ne b 0 with rfl | hb0
  · show Rat.divInt (a.num * (0 : ℚ).den) (a.den * (0 : ℚ).num) = a / 0
    have h0 : (0 : ℚ).num = 0 := rfl
    rw [h0, mul_zero, div_zero]
    rw [show ((0 : ℤ) = ((0 : ℕ) : ℤ)) from rfl, Rat.divInt_ofNat, Rat.mkRat_zero]
  · have hbn : b.num ≠ 0 := Rat.num_ne_zero.mpr hb0
    rw [qdiv, Rat.divInt_eq_div]
    have ha : ((a.den : ℚ)) ≠ 0 := by
      exact_mod_cast Nat.pos_iff_ne_zero.mp a.den_pos
    have hb : ((b.den : ℚ)) ≠ 0 := by
      exact_mod_cast Nat.pos_iff_ne_zero.mp b.den_pos
    have hbnq : ((b.num : ℚ)) ≠ 0 := by exact_mod_cast hbn
    conv_rhs => rw [← Rat.num_div_den a, ← Rat.num_div_den b]
    push_cast
    field_simp

theorem qsum_eq (l : List ℚ) : qsum l = l.sum := by
  induction l with
  | nil => rfl
  | cons x xs ih => rw [qsum, qadd_eq, ih, List.sum_cons]

/-! ### pandas series helpers -/

/-- The window of a rolling statistic at the last row (`series.tail(k)`). -/
def lastN (k : ℕ) (xs : List ℚ) : List ℚ := xs.drop (xs.length - k)

/-- `series.rolling(window=k).mean().iloc[-1]` for a series of length ≥ k. -/
def meanLast (k : ℕ) (xs : List ℚ) : ℚ := qdiv (qsum (lastN k xs)) (k : ℚ)

/-- `series.iloc[-n]` (out of range mapped to 0; every use below is guarded
by a length check, as in the source). -/
def negIdx (xs : List ℚ) (n : ℕ) : ℚ := xs.getD (xs.length - n) 0

/-- One OHLCV row of the candle frame built by `_get_candles_sina`. -/
structure Candle where
  date : PyStr
  openP : ℚ
  high : ℚ
  low : ℚ
  close : ℚ
  volume : ℚ
deriving DecidableEq

/-- The closing-price series `df['收盘']` of a candle frame. -/
def closesOf (df : List Candle) : List ℚ := df.map Candle.close

/-- The high series `df['最高']`. -/
def highsOf (df : List Candle) : List ℚ := df.map Candle.high

/-- The low series `df['最低']`. -/
def lowsOf (df : List Candle) : List ℚ := df.map Candle.low

/-! ### C1: the composite trend score -/

/-- The trend-score computation of `analyze_trend`
(stock_data.py lines 892-922): base 50, ±15 for strict MA5/10/20
alignment, +10 if the current price is above MA20 (else −10), ±10 for a
5-day return beyond ±5 %, then clamp to [0, 100]. -/
def trendScore (closes : List ℚ) : ℤ :=
  let ma5 := meanLast 5 closes
  let ma10 := meanLast 10 closes
  let ma20 := meanLast 20 closes
  let currentPrice := negIdx closes 1
  let change5d : ℚ :=
    if 6 ≤ closes.length then qmul (qsub (qdiv (negIdx closes 1) (negIdx closes 6)) 1) 100
    else 0
  let s1 : ℤ :=
    if ma5 > ma10 ∧ ma10 > ma20 then 50 + 15
    else if ma5 < ma10 ∧ ma10 < ma20 then 50 - 15
    else 50
  let s2 : ℤ := if currentPrice > ma20 then s1 + 10 else s1 - 10
  let s3 : ℤ :=
    if change5d > 5 then s2 + 10 else if change5d < -5 then s2 - 10 else s2
  max 0 (min 100 s3)

/-- The scoring algorithm exactly as the specification (claim C1, spec
§4.5) words it — written from the spec, NOT from the code, to be compared
against `trendScore`: base 50, ±15 alignment, ±10 price vs MA20, ±10 price
vs MA60, ±10 for the 5-day return beyond ±5 %, ±5 for a 20-day-average
volume ratio above 1.5 signed by the 5-day return, clamp to [0, 100]. -/
def specTrendScoreClaim (closes vols : List ℚ) : ℤ :=
  let ma5 := meanLast 5 closes
  let ma10 := meanLast 10 closes
  let ma20 := meanLast 20 closes
  let ma60 := meanLast 60 closes
  let price := negIdx closes 1
  let ret5 : ℚ := qmul (qsub (qdiv (negIdx closes 1) (negIdx closes 6)) 1) 100
  let volRel : ℚ := qdiv (negIdx vols 1) (meanLast 20 vols)
  let adjAlign : ℤ :=
    if ma5 > ma10 ∧ ma10 > ma20 then 15
    else if ma5 < ma10 ∧ ma10 < ma20 then -15
    else 0
  let adjMa20 : ℤ := if price > ma20 then 10 else if price < ma20 then -10 else 0
  let adjMa60 : ℤ := if price > ma60 then 10 else if price < ma60 then -10 else 0
  let adjRet : ℤ := if ret5 > 5 then 10 else if ret5 < -5 then -10 else 0
  let adjVol : ℤ :=
    if volRel > qdiv 3 2 then (if ret5 > 0 then 5 else if ret5 < 0 then -5 else 0)
    else 0
  max 0 (min 100 (50 + adjAlign + adjMa20 + adjMa60 + adjRet + adjVol))

/-- The amended scoring formula: only the three adjustments the code
actually applies (alignment ±15, price vs MA20 +10/−10 with a tie counting
as below, 5-day return ±10); no MA60 and no volume term. -/
def trendScoreSpecAmended (closes : List ℚ) : ℤ :=
  let ma5 := meanLast 5 closes
  let ma10 := meanLast 10 closes
  let ma20 := meanLast 20 closes
  let price := negIdx closes 1
  let ret5 : ℚ := qmul (qsub (qdiv (negIdx closes 1) (negIdx closes 6)) 1) 100
  let adjAlign : ℤ :=
    if ma5 > ma10 ∧ ma10 > ma20 then 15
    else if ma5 < ma10 ∧ ma10 < ma20 then -15
    else 0
  let adjMa20 : ℤ := if price > ma20 then 10 else -10
  let adjRet : ℤ := if ret5 > 5 then 10 else if ret5 < -5 then -10 else 0
  max 0 (min 100 (50 + adjAlign + adjMa20 + adjRet))

/-- A 60-day linearly rising close series (100, 101, …, 159). -/
def c1Closes : List ℚ :=
  [100, 101, 102, 103, 104, 105, 106, 107, 108, 109,
   110, 111, 112, 113, 114, 115, 116, 117, 118, 119,
   120, 121, 122, 123, 124, 125, 126, 127, 128, 129,
   130, 131, 132, 133, 134, 135, 136, 137, 138, 139,
   140, 141, 142, 143, 144, 145, 146, 147, 148, 149,
   150, 151, 152, 153, 154, 155, 156, 157, 158, 159]

/-- 59 flat volumes followed by one 10× spike. -/
def c1Vols : List ℚ := List.replicate 59 (100 : ℚ) ++ [1000]

set_option maxRecDepth 8000 in
/-- C1 counterexample: on a 60-period series the code's score (75: bullish
alignment +15, price above MA20 +10) differs from the score demanded by the
claim (90: the claim additionally adds +10 for price above MA60 and +5 for
the volume spike in an up-move), so `analyze_trend` does not implement the
claimed adjustment list. -/
theorem trend_score_claim_counterexample :
    c1Closes.length = 60 ∧
    trendScore c1Closes = 75 ∧
    specTrendScoreClaim c1Closes c1Vols = 90 ∧
    trendScore c1Closes ≠ specTrendScoreClaim c1Closes c1Vols := by
  refine ⟨by decide, by decide, by decide, by decide⟩

/-- C1 (amended): for every close series of at least 60 periods the
composite score of `analyze_trend` equals: 50, plus 15/−15 for strict
MA5>MA10>MA20 bullish (resp. bearish) alignment, plus 10 if the current
price is above MA20 and −10 otherwise, plus 10/−10 when the 5-day return
exceeds +5 % or is below −5 %, clamped to [0, 100] — with no MA60 term and
no volume term. -/
theorem trend_score_amended (closes : List ℚ) (h : 60 ≤ closes.length) :
    trendScore closes = trendScoreSpecAmended closes := by
  rw [trendScore, trendScoreSpecAmended]
  rw [if_pos (by omega : 6 ≤ closes.length)]
  split_ifs <;> rfl

/-- C1 witness: the amended formula agrees with the code on the concrete
60-day rising series. -/
theorem trend_score_amended_witness :
    60 ≤ c1Closes.length ∧ trendScore c1Closes = trendScoreSpecAmended c1Closes :=
  ⟨by decide, trend_score_amended c1Closes (by decide)⟩

/-! ### C10: news/announcement count split and de-duplicated truncation -/

/-- One scraped news/announcement record (a Python dict with keys
title/url/date and, after enrichment, summary; an absent summary key reads
as the empty string through `.get("summary", "")`). -/
structure NewsItem where
  title : PyStr
  url : PyStr
  date : PyStr
  summary : PyStr
deriving DecidableEq

/-- `news_count = max(1, count // 2)` (stock_data.py line 691). -/
def newsCountOf (count : ℤ) : ℤ := max 1 (Int.fdiv count 2)

/-- `ann_count = max(1, count - news_count)` (stock_data.py line 692). -/
def annCountOf (count : ℤ) : ℤ := max 1 (count - newsCountOf count)

/-- The de-duplicate-then-truncate loop of `_parse_company_news` /
`_parse_company_announcements` (stock_data.py lines 163-171): skip items
whose url was already seen, append, and break once `len(unique) >= limit`;
`n` is the number of items accumulated so far. -/
def uniqueLoop (limit : ℤ) : List NewsItem → List PyStr → ℤ → List NewsItem
  | [], _, _ => []
  | i :: rest, seen, n =>
    if i.url ∈ seen then uniqueLoop limit rest seen n
    else if limit ≤ n + 1 then [i]
    else i :: uniqueLoop limit rest (i.url :: seen) (n + 1)

/-- The de-duplicated, capped item list (`unique` at line 172). -/
def uniqueTrunc (limit : ℤ) (items : List NewsItem) : List NewsItem :=
  uniqueLoop limit items [] 0

theorem uniqueLoop_length_le (limit : ℤ) (items : List NewsItem) :
    ∀ (seen : List PyStr) (n : ℤ), n < limit →
      ((uniqueLoop limit items seen n).length : ℤ) + n ≤ limit := by
  induction items with
  | nil =>
    intro seen n hn
    simp only [uniqueLoop, List.length_nil]
    omega
  | cons i rest ih =>
    intro seen n hn
    rw [uniqueLoop]
    split
    · exact ih seen n hn
    · split
      · rename_i hstop
        simp only [List.length_cons, List.length_nil]
        omega
      · rename_i hgo
        have := ih (i.url :: seen) (n + 1) (by omega)
        simp only [List.length_cons]
        push_cast
        push_cast at this
        omega

theorem uniqueTrunc_length_le {limit : ℤ} (h : 0 < limit)
    (items : List NewsItem) : ((uniqueTrunc limit items).length : ℤ) ≤ limit := by
  have := uniqueLoop_length_le limit items [] 0 h
  rw [uniqueTrunc]
  omega

/-- Items used to exercise the count-split behaviour. -/
def demoItem1 : NewsItem := ⟨lit "news one", lit "https://a/1", lit "", lit ""⟩

/-- Second demo item with a distinct url. -/
def demoItem2 : NewsItem := ⟨lit "news two", lit "https://a/2", lit "", lit ""⟩

/-- C10: the requested count is split into `max(1, count // 2)` news and
`max(1, count - news_count)` announcements, each cap applied independently
after URL de-duplication; hence for `count ≥ 2` the combined total is at
most `count`, while for `count ≤ 1` both caps are 1 and a combined total of
2 can actually be returned, exceeding the request. -/
theorem news_count_split :
    (∀ count : ℤ, 2 ≤ count → ∀ newsItems annItems : List NewsItem,
      ((uniqueTrunc (newsCountOf count) newsItems).length : ℤ) +
        ((uniqueTrunc (annCountOf count) annItems).length : ℤ) ≤ count)
    ∧ (∀ count : ℤ, count ≤ 1 → newsCountOf count = 1 ∧ annCountOf count = 1)
    ∧ ((uniqueTrunc (newsCountOf 1) [demoItem1]).length : ℤ) +
        ((uniqueTrunc (annCountOf 1) [demoItem2]).length : ℤ) = 2 := by
  have hfd : ∀ count : ℤ, Int.fdiv count 2 = count / 2 := fun count =>
    Int.fdiv_eq_ediv count (by omega)
  refine ⟨?_, ?_, by decide⟩
  · intro count hc newsItems annItems
    have h1 : (0 : ℤ) < newsCountOf count := by
      rw [newsCountOf]
      omega
    have h2 : (0 : ℤ) < annCountOf count := by
      rw [annCountOf]
      omega
    have b1 := uniqueTrunc_length_le h1 newsItems
    have b2 := uniqueTrunc_length_le h2 annItems
    have hsum : newsCountOf count + annCountOf count = count := by
      rw [annCountOf, newsCountOf, hfd]
      omega
    omega
  · intro count hc
    rw [newsCountOf, annCountOf, newsCountOf, hfd]
    omega

/-- C10 witness: the split bound instantiated at count 4 (with a duplicate
url that the de-duplication removes) and the caps instantiated at count 0. -/
theorem news_count_split_witness :
    ((uniqueTrunc (newsCountOf 4) [demoItem1, demoItem2, demoItem1]).length : ℤ) +
      ((uniqueTrunc (annCountOf 4) [demoItem2]).length : ℤ) ≤ 4 ∧
    newsCountOf 0 = 1 ∧ annCountOf 0 = 1 :=
  ⟨news_count_split.1 4 (by decide) [demoItem1, demoItem2, demoItem1] [demoItem2],
   news_count_split.2.1 0 (by decide)⟩

/-! ### Decimal parsing and fixed-point formatting

`float(text)` is modelled for plain decimal literals (sign, digits, optional
fraction, optional exponent, surrounding whitespace); the special strings
`inf`/`nan` and digit underscores are not modelled.  `"{:.Nf}"`-style
formatting rounds half-to-even like CPython; the sign of a negative value
that rounds to zero is not modelled. -/

/-- Numeric value of a digit character. -/
def digVal (c : Char) : ℕ := c.toNat - 48

/-- Digit string to natural number (most significant first). -/
def digitsToNat (ds : List Char) : ℕ := ds.foldl (fun a c => 10 * a + digVal c) 0

/-- Value of a parsed decimal literal `sign intDigs . fracDigs e ex`. -/
def decValue (sign : ℤ) (intDigs fracDigs : List Char) (ex : ℤ) : ℚ :=
  let mant : ℤ := sign * ((digitsToNat intDigs * 10 ^ fracDigs.length +
    digitsToNat fracDigs : ℕ) : ℤ)
  if 0 ≤ ex then
    Rat.divInt (mant * ((10 ^ ex.toNat : ℕ) : ℤ)) ((10 ^ fracDigs.length : ℕ) : ℤ)
  else
    Rat.divInt mant ((10 ^ fracDigs.length * 10 ^ (-ex).toNat : ℕ) : ℤ)

/-- Split a leading `+`/`-` sign. -/
def splitSign : PyStr → ℤ × PyStr
  | '+' :: r => (1, r)
  | '-' :: r => (-1, r)
  | r => (1, r)

/-- Parse the exponent tail (after `e`/`E`); fails on a malformed tail. -/
def parseExpTail (sign : ℤ) (intDigs fracDigs : List Char) (r : PyStr) :
    Option ℚ :=
  let es := splitSign r
  let eDigs := es.2.takeWhile Char.isDigit
  let rest := es.2.dropWhile Char.isDigit
  if eDigs = [] ∨ rest ≠ [] then none
  else some (decValue sign intDigs fracDigs (es.1 * (digitsToNat eDigs : ℤ)))

/-- Python `float(text)` on decimal literals: `Option ℚ` models the
`ValueError` path as `none`. -/
def pyFloatParse (s : PyStr) : Option ℚ :=
  let t := pyStrip s
  let st := splitSign t
  let intDigs := st.2.takeWhile Char.isDigit
  let t2 := st.2.dropWhile Char.isDigit
  let ft : List Char × PyStr :=
    match t2 with
    | '.' :: r => (r.takeWhile Char.isDigit, r.dropWhile Char.isDigit)
    | r => ([], r)
  if intDigs = [] ∧ ft.1 = [] then none
  else
    match ft.2 with
    | [] => some (decValue st.1 intDigs ft.1 0)
    | 'e' :: r => parseExpTail st.1 intDigs ft.1 r
    | 'E' :: r => parseExpTail st.1 intDigs ft.1 r
    | _ => none

/-- Floor of a rational (kernel-reducible). -/
def qfloor (q : ℚ) : ℤ := Int.fdiv q.num q.den

/-- Round to the nearest integer, ties to even (CPython float formatting). -/
def roundHalfEven (q : ℚ) : ℤ :=
  let f := qfloor q
  let r := qsub q ((f : ℚ))
  if r < qdiv 1 2 then f
  else if qdiv 1 2 < r then f + 1
  else if f % 2 = 0 then f else f + 1

/-- Decimal digits of a natural number (fuel-based, most significant first). -/
def natDigitsAux : ℕ → ℕ → PyStr
  | 0, _ => []
  | _ + 1, 0 => []
  | fuel + 1, n => natDigitsAux fuel (n / 10) ++ [Char.ofNat (48 + n % 10)]

/-- Decimal rendering of a natural number. -/
def natDigits (n : ℕ) : PyStr := if n = 0 then ['0'] else natDigitsAux (n + 1) n

/-- Python `"{:+.pf}".format(x)` / `"{:.pf}".format(x)`: fixed-point with
`p` decimals, `plus` forcing an explicit sign. -/
def formatFixed (plus : Bool) (prec : ℕ) (q : ℚ) : PyStr :=
  let n := roundHalfEven (qmul q ((10 ^ prec : ℕ) : ℚ))
  let a := n.natAbs
  let ip := a / 10 ^ prec
  let fp := a % 10 ^ prec
  let signStr : PyStr := if n < 0 then ['-'] else if plus then ['+'] else []
  let fracStr : PyStr :=
    if prec = 0 then []
    else '.' :: (List.replicate (prec - (natDigits fp).length) '0' ++ natDigits fp)
  signStr ++ natDigits ip ++ fracStr

/-! ### C9: the financial normalizer's numeric coercion and delta -/

/-- `_to_number` (stock_data.py lines 266-276): strip, reject the
empty/`--`/`N/A`/`-` markers, drop thousands separators and percent signs,
then `float(...)` with `ValueError` mapped to `None`. -/
def toNumber (value : PyStr) : Option ℚ :=
  let text := pyStrip value
  if text = [] ∨ text = lit "--" ∨ text = lit "N/A" ∨ text = lit "-" then none
  else
    pyFloatParse ((text.filter (fun c => c ≠ ',')).filter (fun c => c ≠ '%'))

/-- The per-metric delta fragment of `get_financial_data`
(stock_data.py lines 822-828): empty unless both periods are numeric and
the prior is non-zero, else `"  变动: {delta:+.2f} ({pct:+.2f}%)"`. -/
def deltaTextOf (latestRaw prevRaw : PyStr) : PyStr :=
  match toNumber latestRaw, toNumber prevRaw with
  | some nLatest, some nPrev =>
    if nPrev ≠ 0 then
      lit "  变动: " ++ formatFixed true 2 (qsub nLatest nPrev) ++ lit " (" ++
        formatFixed true 2 (qmul (qdiv (qsub nLatest nPrev) nPrev) 100) ++ lit "%)"
    else []
  | _, _ => []

/-- C9: when both period values coerce to numbers and the prior is
non-zero, the reported delta is `latest − prior` and the percentage change
is `delta / prior × 100`; `"12.5%"` against `"10.0%"` gives +2.50 and
+25.00 %; a non-numeric value or a zero prior reports no delta. -/
theorem financial_delta (latestRaw prevRaw : PyStr) :
    (∀ a b : ℚ, toNumber latestRaw = some a → toNumber prevRaw = some b →
      b ≠ 0 →
      deltaTextOf latestRaw prevRaw =
        lit "  变动: " ++ formatFixed true 2 (a - b) ++ lit " (" ++
          formatFixed true 2 ((a - b) / b * 100) ++ lit "%)")
    ∧ (toNumber latestRaw = none ∨ toNumber prevRaw = none ∨
        toNumber prevRaw = some 0 →
      deltaTextOf latestRaw prevRaw = [])
    ∧ toNumber (lit "12.5%") = some (qdiv 25 2)
    ∧ toNumber (lit "10.0%") = some 10
    ∧ deltaTextOf (lit "12.5%") (lit "10.0%") = lit "  变动: +2.50 (+25.00%)" := by
  refine ⟨?_, ?_, by decide, by decide, by decide⟩
  · intro a b ha hb hbne
    rw [deltaTextOf, ha, hb]
    dsimp only
    rw [if_pos hbne]
    simp only [qsub_eq, qdiv_eq, qmul_eq]
  · intro h
    rcases h with h | h | h
    · rw [deltaTextOf, h]
    · rw [deltaTextOf, h]
      cases toNumber latestRaw <;> rfl
    · rw [deltaTextOf, h]
      cases toNumber latestRaw with
      | none => rfl
      | some a => simp

/-- C9 witness: the general delta rule instantiated at the spec's own
example values. -/
theorem financial_delta_witness :
    deltaTextOf (lit "12.5%") (lit "10.0%") =
      lit "  变动: " ++ formatFixed true 2 ((qdiv 25 2) - 10) ++ lit " (" ++
        formatFixed true 2 (((qdiv 25 2) - 10) / 10 * 100) ++ lit "%)" :=
  (financial_delta (lit "12.5%") (lit "10.0%")).1 (qdiv 25 2) 10
    (by decide) (by decide) (by decide)

/-! ### C6: realtime quote parsing (`_get_realtime_quote_sina`) -/

/-- Everything before the last `"` of a line known to contain one
(the capture of the greedy group in `re.search(r'="(.*)";?', text)`). -/
def beforeLastQuote (ln : PyStr) : PyStr :=
  ((ln.reverse.dropWhile (fun c => c ≠ '"')).drop 1).reverse

/-- The record extraction `re.search(r'="(.*)";?', text)`: scan for the
first `="` that has a closing `"` later on the same line; the greedy group
captures up to the last `"` of that line.  `none` models a failed search. -/
def extractQuoteRecord : PyStr → Option PyStr
  | [] => none
  | '=' :: rest =>
    match rest with
    | '"' :: rest2 =>
      let ln := rest2.takeWhile (fun c => c ≠ '\n')
      if ln.contains '"' then some (beforeLastQuote ln)
      else extractQuoteRecord rest
    | _ => extractQuoteRecord rest
  | _ :: rest => extractQuoteRecord rest

/-- Python `str.split(sep)` for a one-character separator (keeps empties). -/
def pySplitChar (sep : Char) : PyStr → List PyStr
  | [] => [[]]
  | c :: rest =>
    let r := pySplitChar sep rest
    if c = sep then [] :: r
    else
      match r with
      | [] => [[c]]
      | h :: t => (c :: h) :: t

/-- Python `float(field)` with the `ValueError` carried in `Except`. -/
def pyFloatE (s : PyStr) : Except PyStr ℚ :=
  match pyFloatParse s with
  | some q => .ok q
  | none => .error (lit "could not convert string to float: " ++ s)

/-- `int(x)` truncates toward zero. -/
def intTrunc (q : ℚ) : ℤ := Int.tdiv q.num q.den

/-- Decimal rendering of an integer. -/
def intDigits (n : ℤ) : PyStr :=
  if n < 0 then '-' :: natDigits n.natAbs else natDigits n.natAbs

/-- The horizontal rule line used by the report strings. -/
def hline : PyStr := lit "━━━━━━━━━━━━━━━━━━━━━━━━━━━━\n"

/-- The field-wise parsing and report of `_get_realtime_quote_sina`
(stock_data.py lines 409-440), reached only with ≥ 32 fields; a float
conversion error propagates to the enclosing `except`. -/
def quoteBody (stockCode : PyStr) (fields : List PyStr) : Except PyStr PyStr := do
  let stockName := fields.getD 0 []
  let openPrice ← pyFloatE (fields.getD 1 [])
  let prevClose ← pyFloatE (fields.getD 2 [])
  let currentPrice ← pyFloatE (fields.getD 3 [])
  let highPrice ← pyFloatE (fields.getD 4 [])
  let lowPrice ← pyFloatE (fields.getD 5 [])
  let volume ← pyFloatE (fields.getD 8 [])
  let amount ← pyFloatE (fields.getD 9 [])
  let dateStr := fields.getD 30 []
  let timeStr := fields.getD 31 []
  let change := qsub currentPrice prevClose
  let changePct := if prevClose ≠ 0 then qmul (qdiv change prevClose) 100 else 0
  let emoji :=
    if changePct < 0 then lit "🔴" else if changePct > 0 then lit "🟢" else lit "⚪"
  return lit "\n" ++ emoji ++ lit " 实时行情 - " ++ stockName ++ lit " (" ++
    stockCode ++ lit ")\n" ++ hline ++
    lit "当前价格: " ++ formatFixed false 2 currentPrice ++ lit "\n" ++
    lit "涨跌幅: " ++ formatFixed true 2 changePct ++ lit "%\n" ++
    lit "涨跌额: " ++ formatFixed true 2 change ++ lit "\n" ++
    lit "今开: " ++ formatFixed false 2 openPrice ++ lit "\n" ++
    lit "最高: " ++ formatFixed false 2 highPrice ++ lit "\n" ++
    lit "最低: " ++ formatFixed false 2 lowPrice ++ lit "\n" ++
    lit "昨收: " ++ formatFixed false 2 prevClose ++ lit "\n" ++
    lit "成交量: " ++ intDigits (intTrunc volume) ++ lit "\n" ++
    lit "成交额: " ++ formatFixed false 2 amount ++ lit "\n" ++
    lit "时间: " ++ dateStr ++ lit " " ++ timeStr ++ lit "\n" ++ hline ++
    lit "💡 数据来源: 新浪财经\n"

/-- `_get_realtime_quote_sina` (stock_data.py lines 387-442) from the point
the HTTP response text is in hand (the url/symbol construction has no
observable effect on the result). -/
def getRealtimeQuoteSina (stockCode text : PyStr) : PyStr :=
  match extractQuoteRecord text with
  | none => lit "❌ 未获取到 " ++ stockCode ++ lit " 行情数据"
  | some rec =>
    if rec = [] then lit "❌ 未获取到 " ++ stockCode ++ lit " 行情数据"
    else
      let fields := pySplitChar ',' rec
      if fields.length < 32 then lit "❌ 行情数据格式异常: " ++ stockCode
      else
        match quoteBody stockCode fields with
        | .ok s => s
        | .error e => lit "❌ 获取行情数据失败: " ++ e

/-- C6: with no extractable record (or an empty capture) the operation
returns the fixed no-data failure string; with a record of fewer than 32
comma-separated fields it returns the fixed malformed-payload failure
string; in both cases immediately, with no exception escaping — the
field-wise parsing (`quoteBody`) runs only when at least 32 fields are
present. -/
theorem realtime_quote_malformed (stockCode text : PyStr) :
    (extractQuoteRecord text = none →
      getRealtimeQuoteSina stockCode text =
        lit "❌ 未获取到 " ++ stockCode ++ lit " 行情数据")
    ∧ (∀ rec, extractQuoteRecord text = some rec → rec = [] →
      getRealtimeQuoteSina stockCode text =
        lit "❌ 未获取到 " ++ stockCode ++ lit " 行情数据")
    ∧ (∀ rec, extractQuoteRecord text = some rec → rec ≠ [] →
      (pySplitChar ',' rec).length < 32 →
      getRealtimeQuoteSina stockCode text =
        lit "❌ 行情数据格式异常: " ++ stockCode)
    ∧ (∀ rec, extractQuoteRecord text = some rec → rec ≠ [] →
      ¬ (pySplitChar ',' rec).length < 32 →
      getRealtimeQuoteSina stockCode text =
        match quoteBody stockCode (pySplitChar ',' rec) with
        | .ok s => s
        | .error e => lit "❌ 获取行情数据失败: " ++ e) := by
  refine ⟨?_, ?_, ?_, ?_⟩
  · intro h
    rw [getRealtimeQuoteSina, h]
  · intro rec h hrec
    rw [getRealtimeQuoteSina, h]
    dsimp only
    rw [if_pos hrec]
  · intro rec h hrec hlen
    rw [getRealtimeQuoteSina, h]
    dsimp only
    rw [if_neg hrec, if_pos hlen]
  · intro rec h hrec hlen
    rw [getRealtimeQuoteSina, h]
    dsimp only
    rw [if_neg hrec, if_neg hlen]

/-- C6 witness: a record with 3 fields triggers the malformed-payload
string; a response with no `="…"` wrapper triggers the no-data string. -/
theorem realtime_quote_malformed_witness :
    getRealtimeQuoteSina (lit "600519") (lit "var hq=\"a,b,c\";") =
      lit "❌ 行情数据格式异常: " ++ lit "600519" ∧
    getRealtimeQuoteSina (lit "600519") (lit "nothing here") =
      lit "❌ 未获取到 " ++ lit "600519" ++ lit " 行情数据" :=
  ⟨(realtime_quote_malformed (lit "600519") (lit "var hq=\"a,b,c\";")).2.2.1
      (lit "a,b,c") (by decide) (by decide) (by decide),
   (realtime_quote_malformed (lit "600519") (lit "nothing here")).1 (by decide)⟩

/-! ### C7: RSI(14) and IEEE special values

pandas computes `rs = gain / loss` with float semantics: `x/0` is `±inf`
for `x ≠ 0` and `0/0` is `nan`.  `ERat` models a float that is either an
exact rational or one of the special values. -/

/-- A float value: finite (exact rational), ±infinity, or NaN. -/
inductive ERat where
  | fin (q : ℚ)
  | inf
  | negInf
  | nan
deriving DecidableEq

/-- IEEE negation. -/
def eneg : ERat → ERat
  | .fin a => .fin (-a)
  | .inf => .negInf
  | .negInf => .inf
  | .nan => .nan

/-- IEEE addition. -/
def eadd : ERat → ERat → ERat
  | .nan, _ => .nan
  | _, .nan => .nan
  | .fin a, .fin b => .fin (qadd a b)
  | .fin _, .inf => .inf
  | .inf, .fin _ => .inf
  | .inf, .inf => .inf
  | .fin _, .negInf => .negInf
  | .negInf, .fin _ => .negInf
  | .negInf, .negInf => .negInf
  | .inf, .negInf => .nan
  | .negInf, .inf => .nan

/-- IEEE subtraction. -/
def esub (a b : ERat) : ERat := eadd a (eneg b)

/-- IEEE division (`0/0 = nan`, `x/0 = ±inf`, `fin/±inf = 0`). -/
def ediv : ERat → ERat → ERat
  | .nan, _ => .nan
  | _, .nan => .nan
  | .fin a, .fin b =>
    if b = 0 then (if a = 0 then .nan else if 0 < a then .inf else .negInf)
    else .fin (qdiv a b)
  | .fin _, .inf => .fin 0
  | .fin _, .negInf => .fin 0
  | .inf, .fin b => if 0 ≤ b then .inf else .negInf
  | .negInf, .fin b => if 0 ≤ b then .negInf else .inf
  | .inf, .inf => .nan
  | .inf, .negInf => .nan
  | .negInf, .inf => .nan
  | .negInf, .negInf => .nan

/-- IEEE `<` (false whenever a NaN is involved). -/
def elt : ERat → ERat → Bool
  | .nan, _ => false
  | _, .nan => false
  | .fin a, .fin b => decide (a < b)
  | .fin _, .inf => true
  | .inf, .fin _ => false
  | .inf, .inf => false
  | .negInf, .fin _ => true
  | .fin _, .negInf => false
  | .negInf, .inf => true
  | .inf, .negInf => false
  | .negInf, .negInf => false

/-- Python float formatting of a possibly special value. -/
def eFormat (prec : ℕ) : ERat → PyStr
  | .fin q => formatFixed false prec q
  | .inf => lit "inf"
  | .negInf => lit "-inf"
  | .nan => lit "nan"

/-- `close.diff()` after the `where(..., 0)` substitution: the leading NaN
becomes 0, the rest are consecutive close-to-close differences. -/
def deltasOf (closes : List ℚ) : List ℚ :=
  0 :: List.zipWith qsub (closes.drop 1) closes

/-- `delta.where(delta > 0, 0)` — the positive parts. -/
def gainsOf (closes : List ℚ) : List ℚ :=
  (deltasOf closes).map (fun d => if 0 < d then d else 0)

/-- `(-delta).where(delta < 0, 0)` — the absolute negative parts. -/
def lossesOf (closes : List ℚ) : List ℚ :=
  (deltasOf closes).map (fun d => if d < 0 then -d else 0)

/-- `gain.rolling(window=14).mean().iloc[-1]`. -/
def gainAvgLast (closes : List ℚ) : ℚ := qdiv (qsum (lastN 14 (gainsOf closes))) 14

/-- `loss.rolling(window=14).mean().iloc[-1]`. -/
def lossAvgLast (closes : List ℚ) : ℚ := qdiv (qsum (lastN 14 (lossesOf closes))) 14

/-- `rs = gain / loss` at the last row (pandas float division). -/
def rsLast (closes : List ℚ) : ERat :=
  ediv (.fin (gainAvgLast closes)) (.fin (lossAvgLast closes))

/-- `rsi = 100 - (100 / (1 + rs))` at the last row
(stock_data.py lines 612-616). -/
def rsiLast (closes : List ℚ) : ERat :=
  esub (.fin 100) (ediv (.fin 100) (eadd (.fin 1) (rsLast closes)))

/-- A flat 60-day close series (every delta is zero). -/
def c7Closes : List ℚ := List.replicate 60 10

/-- C7 counterexample: on a flat series the 14-period average loss is zero,
yet the RSI is a propagated NaN, not the claimed explicit 100 — the code
has no special case for a zero average loss. -/
theorem rsi_zero_loss_counterexample :
    lossAvgLast c7Closes = 0 ∧ rsiLast c7Closes = ERat.nan ∧
    rsiLast c7Closes ≠ ERat.fin 100 := by
  refine ⟨by decide, by decide, by decide⟩

theorem lastN_map (k : ℕ) (f : ℚ → ℚ) (l : List ℚ) :
    lastN k (l.map f) = (lastN k l).map f := by
  rw [lastN, lastN, List.length_map]
  exact (List.map_drop f l (l.length - k)).symm

theorem sum_zero_iff {l : List ℚ} (h : ∀ x ∈ l, 0 ≤ x) :
    l.sum = 0 ↔ ∀ x ∈ l, x = 0 := by
  induction l with
  | nil => simp
  | cons a t ih =>
    have ha := h a (List.mem_cons_self ..)
    have ht : ∀ x ∈ t, 0 ≤ x := fun x hx => h x (List.mem_cons_of_mem _ hx)
    have hts : 0 ≤ t.sum := List.sum_nonneg ht
    rw [List.sum_cons]
    constructor
    · intro h0
      have ha0 : a = 0 := by linarith
      have hs0 : t.sum = 0 := by linarith
      intro x hx
      rcases List.mem_cons.mp hx with rfl | hx
      · exact ha0
      · exact (ih ht).mp hs0 x hx
    · intro hall
      have ha0 : a = 0 := hall a (List.mem_cons_self ..)
      have hs0 : t.sum = 0 :=
        (ih ht).mpr (fun x hx => hall x (List.mem_cons_of_mem _ hx))
      rw [ha0, hs0, add_zero]

theorem gainAvg_eq (closes : List ℚ) :
    gainAvgLast closes =
      ((lastN 14 (deltasOf closes)).map (fun d => if 0 < d then d else 0)).sum / 14 := by
  rw [gainAvgLast, qdiv_eq, qsum_eq, gainsOf, lastN_map]

theorem lossAvg_eq (closes : List ℚ) :
    lossAvgLast closes =
      ((lastN 14 (deltasOf closes)).map (fun d => if d < 0 then -d else 0)).sum / 14 := by
  rw [lossAvgLast, qdiv_eq, qsum_eq, lossesOf, lastN_map]

theorem gainAvg_nonneg (closes : List ℚ) : 0 ≤ gainAvgLast closes := by
  rw [gainAvg_eq]
  apply div_nonneg _ (by norm_num)
  apply List.sum_nonneg
  intro x hx
  rcases List.mem_map.mp hx with ⟨d, _, rfl⟩
  split_ifs with hd
  · linarith
  · exact le_refl 0

theorem lossAvg_nonneg (closes : List ℚ) : 0 ≤ lossAvgLast closes := by
  rw [lossAvg_eq]
  apply div_nonneg _ (by norm_num)
  apply List.sum_nonneg
  intro x hx
  rcases List.mem_map.mp hx with ⟨d, _, rfl⟩
  split_ifs with hd
  · linarith
  · exact le_refl 0

theorem lossAvg_eq_zero_iff (closes : List ℚ) :
    lossAvgLast closes = 0 ↔ ∀ d ∈ lastN 14 (deltasOf closes), 0 ≤ d := by
  rw [lossAvg_eq, div_eq_zero_iff]
  have h14 : ((14 : ℚ)) ≠ 0 := by norm_num
  simp only [h14, or_false]
  rw [sum_zero_iff]
  · constructor
    · intro hz d hd
      have := hz _ (List.mem_map_of_mem _ hd)
      by_contra hneg
      push_neg at hneg
      rw [if_pos hneg] at this
      linarith
    · intro hnn x hx
      rcases List.mem_map.mp hx with ⟨d, hd, rfl⟩
      rw [if_neg (by linarith [hnn d hd])]
  · intro x hx
    rcases List.mem_map.mp hx with ⟨d, _, rfl⟩
    split_ifs with hd
    · linarith
    · exact le_refl 0

theorem gainAvg_eq_zero_iff (closes : List ℚ) :
    gainAvgLast closes = 0 ↔ ∀ d ∈ lastN 14 (deltasOf closes), d ≤ 0 := by
  rw [gainAvg_eq, div_eq_zero_iff]
  have h14 : ((14 : ℚ)) ≠ 0 := by norm_num
  simp only [h14, or_false]
  rw [sum_zero_iff]
  · constructor
    · intro hz d hd
      have := hz _ (List.mem_map_of_mem _ hd)
      by_contra hpos
      push_neg at hpos
      rw [if_pos hpos] at this
      linarith
    · intro hnp x hx
      rcases List.mem_map.mp hx with ⟨d, hd, rfl⟩
      rw [if_neg (by
        intro hdd
        linarith [hnp d hd])]
  · intro x hx
    rcases List.mem_map.mp hx with ⟨d, _, rfl⟩
    split_ifs with hd
    · linarith
    · exact le_refl 0

theorem eadd_fin_fin (a b : ℚ) : eadd (.fin a) (.fin b) = .fin (qadd a b) := rfl

theorem esub_fin_fin (a b : ℚ) : esub (.fin a) (.fin b) = .fin (qadd a (-b)) := rfl

theorem ediv_fin_fin {a b : ℚ} (hb : b ≠ 0) :
    ediv (.fin a) (.fin b) = .fin (qdiv a b) := by
  show (if b = 0 then
      (if a = 0 then ERat.nan else if 0 < a then ERat.inf else ERat.negInf)
    else ERat.fin (qdiv a b)) = ERat.fin (qdiv a b)
  rw [if_neg hb]

theorem ediv_fin_pos_zero {a : ℚ} (ha : 0 < a) :
    ediv (.fin a) (.fin 0) = .inf := by
  show (if (0 : ℚ) = 0 then
      (if a = 0 then ERat.nan else if 0 < a then ERat.inf else ERat.negInf)
    else ERat.fin (qdiv a 0)) = ERat.inf
  rw [if_pos rfl, if_neg (by linarith), if_pos ha]

theorem ediv_fin_zero_zero : ediv (.fin 0) (.fin 0) = ERat.nan := by
  show (if (0 : ℚ) = 0 then
      (if (0 : ℚ) = 0 then ERat.nan else if (0 : ℚ) < 0 then ERat.inf
        else ERat.negInf)
    else ERat.fin (qdiv 0 0)) = ERat.nan
  rw [if_pos rfl, if_pos rfl]

/-- C7 (amended): for series of ≥ 60 periods, whenever the last 14
close-to-close deltas are not all zero the RSI is a finite value in
[0, 100]; RSI = 100 exactly when all of the last 14 deltas are
non-negative and at least one is positive (through the saturated ratio
`gain/0 = inf`); but when the window is entirely flat (zero average gain
and loss) the code produces a propagated NaN, not an explicit 100. -/
theorem rsi_bounded_amended (closes : List ℚ) (h : 60 ≤ closes.length) :
    ((¬ ∀ x ∈ lastN 14 (deltasOf closes), x = 0) →
      ∃ q, rsiLast closes = ERat.fin q ∧ 0 ≤ q ∧ q ≤ 100)
    ∧ (rsiLast closes = ERat.fin 100 ↔
      (∀ x ∈ lastN 14 (deltasOf closes), 0 ≤ x) ∧
        (∃ x ∈ lastN 14 (deltasOf closes), 0 < x)) := by
  have hgn := gainAvg_nonneg closes
  have hln := lossAvg_nonneg closes
  by_cases hl : lossAvgLast closes = 0
  · by_cases hg : gainAvgLast closes = 0
    · -- flat window: rs = 0/0 = nan and the NaN propagates
      have hrsi : rsiLast closes = ERat.nan := by
        rw [rsiLast, rsLast, hl, hg, ediv_fin_zero_zero]
        rfl
      have hallz : ∀ x ∈ lastN 14 (deltasOf closes), x = 0 := by
        intro x hx
        have h1 := (lossAvg_eq_zero_iff closes).mp hl x hx
        have h2 := (gainAvg_eq_zero_iff closes).mp hg x hx
        linarith
      constructor
      · intro hnz
        exact absurd hallz hnz
      · rw [hrsi]
        constructor
        · intro hfalse
          exact absurd hfalse (by simp)
        · rintro ⟨-, x, hx, hxpos⟩
          have := hallz x hx
          linarith
    · -- zero loss, positive gain: rs = inf saturates the ratio, rsi = 100
      have hgpos : 0 < gainAvgLast closes := lt_of_le_of_ne hgn (Ne.symm hg)
      have hrsi : rsiLast closes = ERat.fin 100 := by
        rw [rsiLast, rsLast, hl, ediv_fin_pos_zero hgpos]
        show ERat.fin (qadd 100 (-(0 : ℚ))) = ERat.fin 100
        rw [qadd_eq]
        norm_num
      refine ⟨fun _ => ⟨100, hrsi, by norm_num, by norm_num⟩, ?_⟩
      rw [hrsi]
      constructor
      · intro _
        refine ⟨(lossAvg_eq_zero_iff closes).mp hl, ?_⟩
        by_contra hno
        push_neg at hno
        exact hg ((gainAvg_eq_zero_iff closes).mpr hno)
      · intro _
        rfl
  · -- positive loss: everything finite, rsi ∈ [0, 100)
    have hlpos : 0 < lossAvgLast closes := lt_of_le_of_ne hln (Ne.symm hl)
    have hratio : 0 ≤ gainAvgLast closes / lossAvgLast closes :=
      div_nonneg hgn hln
    have hval : qadd 1 (qdiv (gainAvgLast closes) (lossAvgLast closes)) ≠ 0 := by
      rw [qadd_eq, qdiv_eq]
      intro h0
      linarith
    have hrsi : rsiLast closes =
        ERat.fin (qadd 100 (-(qdiv 100
          (qadd 1 (qdiv (gainAvgLast closes) (lossAvgLast closes)))))) := by
      rw [rsiLast, rsLast, ediv_fin_fin hl, eadd_fin_fin, ediv_fin_fin hval,
        esub_fin_fin]
    set v : ℚ := qadd 100 (-(qdiv 100
      (qadd 1 (qdiv (gainAvgLast closes) (lossAvgLast closes))))) with hv
    have hden : (0 : ℚ) < 1 + gainAvgLast closes / lossAvgLast closes := by
      linarith
    have hfrac_pos : 0 < 100 / (1 + gainAvgLast closes / lossAvgLast closes) :=
      div_pos (by norm_num) hden
    have hfrac_le : 100 / (1 + gainAvgLast closes / lossAvgLast closes) ≤ 100 := by
      rw [div_le_iff hden]
      have h100 : (0 : ℚ) ≤ 100 := by norm_num
      nlinarith [mul_nonneg h100 hratio]
    have hveq : v = 100 - 100 / (1 + gainAvgLast closes / lossAvgLast closes) := by
      rw [hv, qadd_eq, qdiv_eq, qadd_eq, qdiv_eq]
      ring
    have hvlt : v < 100 := by
      rw [hveq]
      linarith
    constructor
    · intro _
      exact ⟨v, hrsi, by rw [hveq]; linarith, by rw [hveq]; linarith⟩
    · rw [hrsi]
      constructor
      · intro hfin
        have hv100 : v = 100 := by
          injection hfin
        linarith
      · rintro ⟨hall, -⟩
        exact absurd ((lossAvg_eq_zero_iff closes).mpr hall) hl

/-- C7 witness: on the rising 60-day series every delta is +1, so the
amended theorem yields RSI = 100 exactly. -/
theorem rsi_bounded_amended_witness :
    60 ≤ c1Closes.length ∧ rsiLast c1Closes = ERat.fin 100 :=
  ⟨by decide,
   (rsi_bounded_amended c1Closes (by decide)).2.mpr ⟨by decide, by decide⟩⟩

/-! ### The two report operations guarded by the 60-period rule -/

/-- EMA recurrence `e_t = (1-α)·e_{t-1} + α·x_t` (pandas `adjust=False`). -/
def emaAux (alpha : ℚ) (prev : ℚ) : List ℚ → List ℚ
  | [] => []
  | x :: xs =>
    let e := qadd (qmul (qsub 1 alpha) prev) (qmul alpha x)
    e :: emaAux alpha e xs

/-- `series.ewm(span=span, adjust=False).mean()`: seeded from the first
value with smoothing factor `2/(span+1)`. -/
def emaList (span : ℕ) (xs : List ℚ) : List ℚ :=
  match xs with
  | [] => []
  | x :: rest => x :: emaAux (qdiv 2 ((span + 1 : ℕ) : ℚ)) x rest

/-- Reducible binary max (float `max` semantics on finite values). -/
def qmax (a b : ℚ) : ℚ := if a ≤ b then b else a

/-- Reducible binary min. -/
def qmin (a b : ℚ) : ℚ := if b ≤ a then b else a

/-- `series.max()` (0 only for the empty series, which the callers guard). -/
def listMaxD : List ℚ → ℚ
  | [] => 0
  | x :: xs => xs.foldl qmax x

/-- `series.min()`. -/
def listMinD : List ℚ → ℚ
  | [] => 0
  | x :: xs => xs.foldl qmin x

/-- `calculate_indicators` (stock_data.py lines 581-674) from the point the
candle frame is in hand: the 60-period guard, MA/MACD/RSI computation and
the report string.  (`get_stock_name` returns its argument unchanged, so
`stock_name = stock_code`.) -/
def calculateIndicatorsBody (stockCode : PyStr) (df : List Candle) : PyStr :=
  -- the leading newline of the triple-quoted f-string, lifted out as a cons
  '\n' ::
   (let closes := closesOf df
    let ma5 := meanLast 5 closes
    let ma10 := meanLast 10 closes
    let ma20 := meanLast 20 closes
    let ma60 := meanLast 60 closes
    let ema12 := emaList 12 closes
    let ema26 := emaList 26 closes
    let dif := List.zipWith qsub ema12 ema26
    let dea := emaList 9 dif
    let macd := List.zipWith (fun a b => qmul (qsub a b) 2) dif dea
    let rsi := rsiLast closes
    let latestClose := negIdx closes 1
    let latestDate := ((df.getLast?).map Candle.date).getD []
    let part1 :=
      lit "📊 技术指标分析 - " ++ stockCode ++ lit " (" ++ stockCode ++
        lit ")\n日期: " ++ latestDate ++ lit "  收盘价: ¥" ++
        formatFixed false 2 latestClose ++ lit "\n" ++ hline ++
        lit "\n📈 【均线系统 MA】\n  MA5:  ¥" ++ formatFixed false 2 ma5 ++
        lit "  " ++ (if latestClose > ma5 then lit "↑" else lit "↓") ++
        lit "\n  MA10: ¥" ++ formatFixed false 2 ma10 ++
        lit "  " ++ (if latestClose > ma10 then lit "↑" else lit "↓") ++
        lit "\n  MA20: ¥" ++ formatFixed false 2 ma20 ++
        lit "  " ++ (if latestClose > ma20 then lit "↑" else lit "↓") ++
        lit "\n  MA60: ¥" ++ formatFixed false 2 ma60 ++
        lit "  " ++ (if latestClose > ma60 then lit "↑" else lit "↓") ++ lit "\n"
    let part2 :=
      if ma5 > ma10 ∧ ma10 > ma20 then lit "  💹 均线呈多头排列，趋势向上\n"
      else if ma5 < ma10 ∧ ma10 < ma20 then lit "  📉 均线呈空头排列，趋势向下\n"
      else lit "  ⚖️ 均线交织，趋势不明朗\n"
    let part3 :=
      lit "\n📊 【MACD指标】\n  DIF:  " ++ formatFixed false 3 (negIdx dif 1) ++
        lit "\n  DEA:  " ++ formatFixed false 3 (negIdx dea 1) ++
        lit "\n  MACD: " ++ formatFixed false 3 (negIdx macd 1) ++ lit "\n"
    let part4 :=
      if negIdx dif 1 > negIdx dea 1 ∧ negIdx dif 2 ≤ negIdx dea 2 then
        lit "  🔥 MACD金叉，买入信号\n"
      else if negIdx dif 1 < negIdx dea 1 ∧ negIdx dif 2 ≥ negIdx dea 2 then
        lit "  ⚠️ MACD死叉，卖出信号\n"
      else if negIdx dif 1 > 0 then lit "  📈 MACD在零轴上方，多头市场\n"
      else lit "  📉 MACD在零轴下方，空头市场\n"
    let part5 := lit "\n📉 【RSI指标】(14日)\n  RSI: " ++ eFormat 2 rsi ++ lit "\n"
    let part6 :=
      if elt rsi (.fin 30) then lit "  💡 RSI<30，超卖区域，可能反弹\n"
      else if elt (.fin 70) rsi then lit "  ⚠️ RSI>70，超买区域，注意回调\n"
      else lit "  ⚖️ RSI处于正常区间\n"
    part1 ++ part2 ++ part3 ++ part4 ++ part5 ++ part6 ++
      lit "\n" ++ hline ++ lit "💡 数据来源: 新浪财经\n" ++
      lit "⚠️ 以上指标仅供参考，不构成投资建议\n")

/-- The guard of `calculate_indicators` (stock_data.py lines 596-597). -/
def calculateIndicators (stockCode : PyStr) (df : List Candle) : PyStr :=
  if df = [] ∨ df.length < 60 then
    lit "❌ 数据不足，无法计算技术指标（需要至少60个交易日数据）"
  else calculateIndicatorsBody stockCode df

/-- `analyze_trend` (stock_data.py lines 869-994) from the point the candle
frame is in hand: the 60-period guard, price trend, moving averages,
support/resistance, the composite score (`trendScore`) and the report. -/
def analyzeTrendBody (stockCode : PyStr) (df : List Candle) : PyStr :=
  -- the leading newline of the triple-quoted f-string, lifted out as a cons
  '\n' ::
   (let closes := closesOf df
    let highs := highsOf df
    let lows := lowsOf df
    let ma5 := meanLast 5 closes
    let ma10 := meanLast 10 closes
    let ma20 := meanLast 20 closes
    let ma60 := meanLast 60 closes
    let currentPrice := negIdx closes 1
    let change5d :=
      if 6 ≤ closes.length then
        qmul (qsub (qdiv (negIdx closes 1) (negIdx closes 6)) 1) 100
      else 0
    let change10d :=
      if 11 ≤ closes.length then
        qmul (qsub (qdiv (negIdx closes 1) (negIdx closes 11)) 1) 100
      else 0
    let change20d :=
      if 21 ≤ closes.length then
        qmul (qsub (qdiv (negIdx closes 1) (negIdx closes 21)) 1) 100
      else 0
    let resistance := listMaxD (lastN 20 highs)
    let support := listMinD (lastN 20 lows)
    let score := trendScore closes
    let latestDate := ((df.getLast?).map Candle.date).getD []
    let part1 :=
      lit "📊 趋势分析报告 - " ++ stockCode ++ lit " (" ++ stockCode ++
        lit ")\n日期: " ++ latestDate ++ lit "  当前价: " ++
        formatFixed false 2 currentPrice ++ lit "\n" ++ hline ++
        lit "\n📈 【价格趋势】\n   近5日涨跌: " ++ formatFixed true 2 change5d ++
        lit "%\n   近10日涨跌: " ++ formatFixed true 2 change10d ++
        lit "%\n   近20日涨跌: " ++ formatFixed true 2 change20d ++ lit "%\n"
    let part2 :=
      if change5d > 3 ∧ change10d > 5 then lit "   🔥 短期强势上涨趋势\n"
      else if change5d > 0 ∧ change10d > 0 then lit "   📈 温和上涨趋势\n"
      else if change5d < -3 ∧ change10d < -5 then lit "   📉 短期明显下跌趋势\n"
      else if change5d < 0 ∧ change10d < 0 then lit "   ⬇️ 温和下跌趋势\n"
      else lit "   ⚖️ 震荡整理走势\n"
    let part3 :=
      lit "\n📊 【均线系统】\n   MA5:  " ++ formatFixed false 2 ma5 ++
        lit "  " ++ (if currentPrice > ma5 then lit "↑" else lit "↓") ++
        lit "\n   MA10: " ++ formatFixed false 2 ma10 ++
        lit "  " ++ (if currentPrice > ma10 then lit "↑" else lit "↓") ++
        lit "\n   MA20: " ++ formatFixed false 2 ma20 ++
        lit "  " ++ (if currentPrice > ma20 then lit "↑" else lit "↓") ++
        lit "\n   MA60: " ++ formatFixed false 2 ma60 ++
        lit "  " ++ (if currentPrice > ma60 then lit "↑" else lit "↓") ++ lit "\n"
    let part4 :=
      if ma5 > ma10 ∧ ma10 > ma20 then lit "   💹 均线多头排列，趋势向上\n"
      else if ma5 < ma10 ∧ ma10 < ma20 then lit "   📉 均线空头排列，趋势向下\n"
      else lit "   ⚖️ 均线交织，方向不明\n"
    let part5 :=
      lit "\n🎯 【关键价位】\n   压力位1: " ++ formatFixed false 2 resistance ++
        lit " (近期高点)\n   支撑位1: " ++ formatFixed false 2 support ++
        lit " (近期低点)\n" ++ hline ++
        lit "\n🎯 【综合趋势评分】: " ++ intDigits score ++ lit "/100\n"
    let part6 :=
      if score ≥ 80 then lit "   评级: ⭐⭐⭐⭐⭐ 强势多头\n"
      else if score ≥ 65 then lit "   评级: ⭐⭐⭐⭐ 偏多\n"
      else if score ≥ 50 then lit "   评级: ⭐⭐⭐ 中性\n"
      else if score ≥ 35 then lit "   评级: ⭐⭐ 偏空\n"
      else lit "   评级: ⭐ 弱势空头\n"
    let part7 :=
      lit "\n📋 【操作建议】\n🔸 趋势判断: " ++
        (if score ≥ 70 then lit "强势上涨"
         else if score ≥ 50 then lit "偏强震荡" else lit "弱势下跌") ++
        lit "\n🔸 建议策略:\n   - 已持有：根据技术指标灵活操作\n   - 未持有：关注支撑位附近的买入机会\n" ++
        hline ++
        lit "💡 数据来源: 新浪财经\n⚠️ 以上分析仅供参考，不构成投资建议\n   股市有风险，投资需谨慎！\n"
    part1 ++ part2 ++ part3 ++ part4 ++ part5 ++ part6 ++ part7)

/-- The guard of `analyze_trend` (stock_data.py lines 885-886). -/
def analyzeTrend (stockCode : PyStr) (df : List Candle) : PyStr :=
  if df = [] ∨ df.length < 60 then
    lit "❌ 数据不足，无法进行趋势分析（需要至少60个交易日数据）"
  else analyzeTrendBody stockCode df

theorem report_ne_msg {a b : PyStr} (ha : a.head? = some '\n')
    (hb : b.head? = some '❌') : a ≠ b := by
  intro he
  rw [he, hb] at ha
  exact absurd ha (by simp)

/-- The 60-row guard shared by both report operations: below 60 rows each
guarded body returns its fixed insufficient-data message; at 60 or more the
message is provably not returned. -/
theorem sixty_row_guard (stockCode : PyStr) (df : List Candle) :
    (df.length < 60 →
      calculateIndicators stockCode df =
        lit "❌ 数据不足，无法计算技术指标（需要至少60个交易日数据）" ∧
      analyzeTrend stockCode df =
        lit "❌ 数据不足，无法进行趋势分析（需要至少60个交易日数据）")
    ∧ (60 ≤ df.length →
      calculateIndicators stockCode df ≠
        lit "❌ 数据不足，无法计算技术指标（需要至少60个交易日数据）" ∧
      analyzeTrend stockCode df ≠
        lit "❌ 数据不足，无法进行趋势分析（需要至少60个交易日数据）")
    := by
  constructor
  · intro h
    constructor
    · rw [calculateIndicators, if_pos (Or.inr h)]
    · rw [analyzeTrend, if_pos (Or.inr h)]
  · intro h
    have hcond : ¬(df = [] ∨ df.length < 60) := by
      rintro (rfl | hlt)
      · simp at h
      · omega
    constructor
    · rw [calculateIndicators, if_neg hcond]
      exact report_ne_msg rfl rfl
    · rw [analyzeTrend, if_neg hcond]
      exact report_ne_msg rfl rfl

/-- `_get_candles` (stock_data.py lines 338-342): raises
`Exception("新浪财经数据获取失败")` when the fetched frame is empty, so an
empty frame never reaches the 60-row guard of either caller. -/
def getCandles (fetched : List Candle) : Except PyStr (List Candle) :=
  if fetched = [] then .error (lit "新浪财经数据获取失败") else .ok fetched

/-- The complete `calculate_indicators` operation from the parsed frame
onward: the `_get_candles` raise is caught by the enclosing `except` and
rendered as `❌ 计算技术指标失败: {e}` (line 674). -/
def calculateIndicatorsOp (stockCode : PyStr) (fetched : List Candle) : PyStr :=
  match getCandles fetched with
  | .error e => lit "❌ 计算技术指标失败: " ++ e
  | .ok df => calculateIndicators stockCode df

/-- The complete `analyze_trend` operation from the parsed frame onward:
the `_get_candles` raise is rendered as `❌ 趋势分析失败: {e}` (line 996). -/
def analyzeTrendOp (stockCode : PyStr) (fetched : List Candle) : PyStr :=
  match getCandles fetched with
  | .error e => lit "❌ 趋势分析失败: " ++ e
  | .ok df => analyzeTrend stockCode df

/-- A single-candle frame (insufficient history). -/
def c2Short : List Candle := [⟨lit "2024-01-02", 100, 101, 99, 100, 1000⟩]

/-- A flat 60-candle frame (sufficient history). -/
def c2Df : List Candle := List.replicate 60 ⟨lit "2024-01-02", 100, 101, 99, 100, 1000⟩

/-- C2 counterexample: on the empty fetched series neither operation
returns an InsufficientData message — `_get_candles` raises first, and both
operations return the generic fetch-failure string, which does not state
the 60-period requirement.  The `df.empty` half of the guard at lines
596/885 is dead code. -/
theorem insufficient_data_empty_counterexample :
    calculateIndicatorsOp (lit "600519") [] =
      lit "❌ 计算技术指标失败: " ++ lit "新浪财经数据获取失败" ∧
    analyzeTrendOp (lit "600519") [] =
      lit "❌ 趋势分析失败: " ++ lit "新浪财经数据获取失败" ∧
    calculateIndicatorsOp (lit "600519") [] ≠
      lit "❌ 数据不足，无法计算技术指标（需要至少60个交易日数据）" ∧
    analyzeTrendOp (lit "600519") [] ≠
      lit "❌ 数据不足，无法进行趋势分析（需要至少60个交易日数据）" := by
  refine ⟨by decide, by decide, by decide, by decide⟩

/-- C2 (amended): every fetched candle series with at least one but fewer
than 60 rows makes both operations return their fixed insufficient-data
message naming the 60-trading-day requirement, computing nothing else; with
60 or more rows that branch is never taken; and the empty series never
reaches the guard — `_get_candles` raises and each operation returns its
generic fetch-failure message instead. -/
theorem insufficient_data_amended (stockCode : PyStr) (fetched : List Candle) :
    (fetched ≠ [] → fetched.length < 60 →
      calculateIndicatorsOp stockCode fetched =
        lit "❌ 数据不足，无法计算技术指标（需要至少60个交易日数据）" ∧
      analyzeTrendOp stockCode fetched =
        lit "❌ 数据不足，无法进行趋势分析（需要至少60个交易日数据）")
    ∧ (60 ≤ fetched.length →
      calculateIndicatorsOp stockCode fetched ≠
        lit "❌ 数据不足，无法计算技术指标（需要至少60个交易日数据）" ∧
      analyzeTrendOp stockCode fetched ≠
        lit "❌ 数据不足，无法进行趋势分析（需要至少60个交易日数据）")
    ∧ (fetched = [] →
      calculateIndicatorsOp stockCode fetched =
        lit "❌ 计算技术指标失败: " ++ lit "新浪财经数据获取失败" ∧
      analyzeTrendOp stockCode fetched =
        lit "❌ 趋势分析失败: " ++ lit "新浪财经数据获取失败") := by
  refine ⟨?_, ?_, ?_⟩
  · intro hne hlen
    rw [calculateIndicatorsOp, analyzeTrendOp, getCandles, if_neg hne]
    exact (sixty_row_guard stockCode fetched).1 hlen
  · intro hlen
    have hne : fetched ≠ [] := by
      intro h0
      rw [h0] at hlen
      simp at hlen
    rw [calculateIndicatorsOp, analyzeTrendOp, getCandles, if_neg hne]
    exact (sixty_row_guard stockCode fetched).2 hlen
  · intro h0
    subst h0
    exact ⟨rfl, rfl⟩

/-- C2 witness: the amended theorem instantiated at a 1-row frame
(insufficient-data message), a 60-row frame (branch not taken) and the
empty frame (fetch-failure message). -/
theorem insufficient_data_amended_witness :
    calculateIndicatorsOp (lit "600519") c2Short =
      lit "❌ 数据不足，无法计算技术指标（需要至少60个交易日数据）" ∧
    analyzeTrendOp (lit "600519") c2Df ≠
      lit "❌ 数据不足，无法进行趋势分析（需要至少60个交易日数据）" ∧
    analyzeTrendOp (lit "600519") [] =
      lit "❌ 趋势分析失败: " ++ lit "新浪财经数据获取失败" :=
  ⟨((insufficient_data_amended (lit "600519") c2Short).1 (by decide) (by decide)).1,
   ((insufficient_data_amended (lit "600519") c2Df).2.1 (by decide)).2,
   ((insufficient_data_amended (lit "600519") ([] : List Candle)).2.2 rfl).2⟩

/-- Substring test (`needle in haystack`). -/
def containsSeq (needle : PyStr) : PyStr → Bool
  | [] => beginsWith needle []
  | c :: rest => beginsWith needle (c :: rest) || containsSeq needle rest

set_option maxRecDepth 8000 in
/-- C3: evaluating `calculate_indicators` on a 60-row frame, the produced
report carries the MA, MACD and RSI sections, but no KDJ values (no K/D/J)
and no Bollinger band values — contradicting the claim, the spec's
indicator snapshot, and the function's own docstring, which promise
KDJ (K/D/J recurrence) and BOLL(upper/mid/lower) alongside MA, MACD and
RSI. -/
theorem indicators_no_kdj_boll :
    containsSeq (lit "MA5") (calculateIndicators (lit "600519") c2Df) = true ∧
    containsSeq (lit "MACD") (calculateIndicators (lit "600519") c2Df) = true ∧
    containsSeq (lit "RSI") (calculateIndicators (lit "600519") c2Df) = true ∧
    containsSeq (lit "KDJ") (calculateIndicators (lit "600519") c2Df) = false ∧
    containsSeq (lit "K值") (calculateIndicators (lit "600519") c2Df) = false ∧
    containsSeq (lit "BOLL") (calculateIndicators (lit "600519") c2Df) = false ∧
    containsSeq (lit "布林") (calculateIndicators (lit "600519") c2Df) = false := by
  refine ⟨by decide, by decide, by decide, by decide, by decide, by decide, by decide⟩

/-! ### C8: degraded news summaries -/

/-- `_strip_summaries` (stock_data.py lines 129-131): keep only title/url/
date for items with a non-empty title; the dropped summary key reads back
as the empty string. -/
def stripSummaries (items : List NewsItem) : List NewsItem :=
  (items.filter (fun i => !i.title.isEmpty)).map
    (fun i => ⟨i.title, i.url, i.date, []⟩)

/-- One enumerated item of the news/announcement sections
(stock_data.py lines 715-725 / 730-740). -/
def renderNewsItem (idx : ℕ) (item : NewsItem) : PyStr :=
  let summary :=
    if 120 < item.summary.length then item.summary.take 120 ++ lit "..."
    else item.summary
  natDigits idx ++ lit ". " ++ item.title ++ lit "\n" ++
    (if !item.date.isEmpty then lit "   🕐 " ++ item.date ++ lit "\n" else []) ++
    (if !summary.isEmpty then lit "   📝 " ++ summary ++ lit "\n" else []) ++
    (if !item.url.isEmpty then lit "   🔗 " ++ item.url ++ lit "\n" else [])

/-- `enumerate(items, start=idx)` rendering. -/
def renderItems (idx : ℕ) : List NewsItem → PyStr
  | [] => []
  | i :: rest => renderNewsItem idx i ++ renderItems (idx + 1) rest

/-- The success report of `get_stock_news` (stock_data.py lines 708-747). -/
def buildNewsReport (stockCode : PyStr) (news2 ann2 : List NewsItem)
    (summaryFailed : Bool) : PyStr :=
  -- the leading newline of the triple-quoted f-string, lifted out as a cons
  '\n' ::
   (lit "📰 新闻/公告 - " ++ stockCode ++ lit "\n" ++ hline ++
    (if !news2.isEmpty then
      lit "📌 【公司新闻】\n" ++ renderItems 1 news2 ++ lit "\n" else []) ++
    (if !ann2.isEmpty then
      lit "📣 【公司公告】\n" ++ renderItems 1 ann2 else []) ++
    (if summaryFailed then lit "\n⚠️ 摘要获取失败，已降级为仅标题列表\n" else []) ++
    lit "\n" ++ hline ++
    lit "共获取 " ++ natDigits (news2.length + ann2.length) ++
    lit " 条新闻/公告\n" ++ lit "💡 数据来源: 新浪财经\n")

/-- `get_stock_news` (stock_data.py lines 689-747) from the point the two
scraped batches are in hand: demote a batch whose summaries all came back
empty, fail only when both processed batches are empty, and otherwise
return the report with the degradation flag. -/
def getStockNews (stockCode : PyStr) (newsItems annItems : List NewsItem) : PyStr :=
  let newsFailed := !newsItems.isEmpty && newsItems.all (fun i => i.summary.isEmpty)
  let news2 := if newsFailed then stripSummaries newsItems else newsItems
  let annFailed := !annItems.isEmpty && annItems.all (fun i => i.summary.isEmpty)
  let ann2 := if annFailed then stripSummaries annItems else annItems
  if news2.isEmpty && ann2.isEmpty then
    lit "❌ 未找到 " ++ stockCode ++ lit " 的相关新闻或公告"
  else buildNewsReport stockCode news2 ann2 (newsFailed || annFailed)

theorem beginsWith_refl (s : PyStr) : beginsWith s s = true := by
  induction s with
  | nil => rfl
  | cons c r ih => simp [beginsWith, ih]

theorem beginsWith_append_of {n s : PyStr} (t : PyStr)
    (h : beginsWith n s = true) : beginsWith n (s ++ t) = true := by
  induction n generalizing s with
  | nil => rfl
  | cons p ps ih =>
    cases s with
    | nil => exact absurd h (by simp [beginsWith])
    | cons c cs =>
      simp only [beginsWith, Bool.and_eq_true] at h
      simp only [List.cons_append, beginsWith, Bool.and_eq_true]
      exact ⟨h.1, ih h.2⟩

theorem containsSeq_cons_of {n x : PyStr} (c : Char)
    (h : containsSeq n x = true) : containsSeq n (c :: x) = true := by
  rw [containsSeq, h]
  simp

theorem containsSeq_append_of_right {n : PyStr} (a : PyStr) {b : PyStr}
    (h : containsSeq n b = true) : containsSeq n (a ++ b) = true := by
  induction a with
  | nil => exact h
  | cons c a' ih => exact List.cons_append c a' b ▸ containsSeq_cons_of c ih

theorem containsSeq_append_of_left {n : PyStr} {a : PyStr} (b : PyStr)
    (h : containsSeq n a = true) : containsSeq n (a ++ b) = true := by
  induction a with
  | nil =>
    rw [containsSeq] at h
    cases n with
    | nil => cases b with
      | nil => exact h
      | cons c r => exact containsSeq_cons_of c (by
          induction r with
          | nil => rfl
          | cons d r' ihr => exact containsSeq_cons_of d ihr)
    | cons p ps => exact absurd h (by simp [beginsWith])
  | cons c a' ih =>
    rw [containsSeq, Bool.or_eq_true] at h
    rw [List.cons_append]
    rcases h with h | h
    · have hb := beginsWith_append_of b h
      rw [List.cons_append] at hb
      rw [containsSeq, hb]
      simp
    · exact containsSeq_cons_of c (ih h)

theorem containsSeq_self (n : PyStr) : containsSeq n n = true := by
  cases n with
  | nil => rfl
  | cons c r =>
    rw [containsSeq, beginsWith_refl]
    simp

/-- The degradation warning is always present in a report built with the
flag set. -/
theorem warn_in_report (stockCode : PyStr) (news2 ann2 : List NewsItem) :
    containsSeq (lit "\n⚠️ 摘要获取失败，已降级为仅标题列表\n")
      (buildNewsReport stockCode news2 ann2 true) = true := by
  rw [buildNewsReport]
  apply containsSeq_cons_of
  apply containsSeq_append_of_left
  apply containsSeq_append_of_left
  apply containsSeq_append_of_left
  apply containsSeq_append_of_left
  apply containsSeq_append_of_left
  apply containsSeq_append_of_left
  apply containsSeq_append_of_right
  exact containsSeq_self _

theorem allEmpty_flag {items : List NewsItem} (h1 : items ≠ [])
    (h2 : ∀ i ∈ items, i.summary = []) :
    (!items.isEmpty && items.all fun i => i.summary.isEmpty) = true := by
  cases items with
  | nil => exact absurd rfl h1
  | cons a t =>
    simp only [List.isEmpty_cons, Bool.not_false, Bool.true_and, List.all_eq_true]
    intro i hi
    rw [h2 i hi]
    rfl

theorem stripSummaries_not_empty {items : List NewsItem} (h1 : items ≠ [])
    (h3 : ∀ i ∈ items, i.title ≠ []) :
    (stripSummaries items).isEmpty = false := by
  have hfil : items.filter (fun i => !i.title.isEmpty) = items := by
    rw [List.filter_eq_self]
    intro a ha
    cases ht : a.title with
    | nil => exact absurd ht (h3 a ha)
    | cons c r => rfl
  rw [stripSummaries, hfil]
  cases items with
  | nil => exact absurd rfl h1
  | cons a t => rfl

/-- C8: whichever batch comes back with an empty summary on every item —
the news batch or the announcement batch — that batch is demoted to
title-only records (`stripSummaries`), the other batch is processed by the
same per-batch rule (kept as fetched, summaries included, unless it too
fully failed), the report carries the "summaries unavailable" degradation
notice, and the operation still returns a success report (newline-headed,
differing from the not-found failure string). -/
theorem news_degraded (stockCode : PyStr) (newsItems annItems : List NewsItem) :
    ((newsItems ≠ []) → (∀ i ∈ newsItems, i.summary = []) →
      (∀ i ∈ newsItems, i.title ≠ []) →
      getStockNews stockCode newsItems annItems =
        buildNewsReport stockCode (stripSummaries newsItems)
          (if (!annItems.isEmpty && annItems.all fun i => i.summary.isEmpty)
            then stripSummaries annItems else annItems) true
      ∧ containsSeq (lit "\n⚠️ 摘要获取失败，已降级为仅标题列表\n")
          (getStockNews stockCode newsItems annItems) = true
      ∧ (getStockNews stockCode newsItems annItems).head? = some '\n'
      ∧ getStockNews stockCode newsItems annItems ≠
          lit "❌ 未找到 " ++ stockCode ++ lit " 的相关新闻或公告")
    ∧ ((annItems ≠ []) → (∀ i ∈ annItems, i.summary = []) →
      (∀ i ∈ annItems, i.title ≠ []) →
      getStockNews stockCode newsItems annItems =
        buildNewsReport stockCode
          (if (!newsItems.isEmpty && newsItems.all fun i => i.summary.isEmpty)
            then stripSummaries newsItems else newsItems)
          (stripSummaries annItems) true
      ∧ containsSeq (lit "\n⚠️ 摘要获取失败，已降级为仅标题列表\n")
          (getStockNews stockCode newsItems annItems) = true
      ∧ (getStockNews stockCode newsItems annItems).head? = some '\n'
      ∧ getStockNews stockCode newsItems annItems ≠
          lit "❌ 未找到 " ++ stockCode ++ lit " 的相关新闻或公告") := by
  constructor
  · intro h1 h2 h3
    have hNF := allEmpty_flag h1 h2
    have hSNE := stripSummaries_not_empty h1 h3
    have hmain : getStockNews stockCode newsItems annItems =
        buildNewsReport stockCode (stripSummaries newsItems)
          (if (!annItems.isEmpty && annItems.all fun i => i.summary.isEmpty)
            then stripSummaries annItems else annItems) true := by
      rw [getStockNews]
      simp only [hNF, if_true, hSNE, Bool.false_and, if_false, Bool.true_or]
      rfl
    refine ⟨hmain, ?_, ?_, ?_⟩
    · rw [hmain]
      exact warn_in_report ..
    · rw [hmain]
      rfl
    · rw [hmain]
      exact report_ne_msg rfl rfl
  · intro h1 h2 h3
    have hAF := allEmpty_flag h1 h2
    have hSNE := stripSummaries_not_empty h1 h3
    have hmain : getStockNews stockCode newsItems annItems =
        buildNewsReport stockCode
          (if (!newsItems.isEmpty && newsItems.all fun i => i.summary.isEmpty)
            then stripSummaries newsItems else newsItems)
          (stripSummaries annItems) true := by
      rw [getStockNews]
      simp only [hAF, if_true, hSNE, Bool.and_false, if_false, Bool.or_true]
      rfl
    refine ⟨hmain, ?_, ?_, ?_⟩
    · rw [hmain]
      exact warn_in_report ..
    · rw [hmain]
      rfl
    · rw [hmain]
      exact report_ne_msg rfl rfl

/-- A news item whose summary enrichment succeeded. -/
def demoItem3 : NewsItem := ⟨lit "news three", lit "https://a/3", lit "", lit "sum"⟩

/-- C8 witness: both directions — a fully summary-less news batch next to
an announcement batch that keeps its summary, and the symmetric case where
only the announcement batch failed while the news batch retains its
summary. -/
theorem news_degraded_witness :
    (getStockNews (lit "600519") [demoItem1] [demoItem3] =
      buildNewsReport (lit "600519") (stripSummaries [demoItem1])
        (if (!([demoItem3] : List NewsItem).isEmpty &&
            ([demoItem3] : List NewsItem).all fun i => i.summary.isEmpty)
          then stripSummaries [demoItem3] else [demoItem3]) true
    ∧ containsSeq (lit "\n⚠️ 摘要获取失败，已降级为仅标题列表\n")
        (getStockNews (lit "600519") [demoItem1] [demoItem3]) = true)
    ∧ (getStockNews (lit "600519") [demoItem3] [demoItem2] =
      buildNewsReport (lit "600519")
        (if (!([demoItem3] : List NewsItem).isEmpty &&
            ([demoItem3] : List NewsItem).all fun i => i.summary.isEmpty)
          then stripSummaries [demoItem3] else [demoItem3])
        (stripSummaries [demoItem2]) true
    ∧ (getStockNews (lit "600519") [demoItem3] [demoItem2]).head? = some '\n') :=
  ⟨⟨((news_degraded (lit "600519") [demoItem1] [demoItem3]).1
      (by decide) (by decide) (by decide)).1,
    ((news_degraded (lit "600519") [demoItem1] [demoItem3]).1
      (by decide) (by decide) (by decide)).2.1⟩,
   ⟨((news_degraded (lit "600519") [demoItem3] [demoItem2]).2
      (by decide) (by decide) (by decide)).1,
    ((news_degraded (lit "600519") [demoItem3] [demoItem2]).2
      (by decide) (by decide) (by decide)).2.2.1⟩⟩
